import Mathlib

/-!
# Verification of the TRC-8004-M2M SDK resilience/integrity layer

A shallow embedding, in Lean 4, of the pure kernel of the SDK:

* `trc8004_m2m/utils/crypto.py` — canonical JSON serialization and hashing
  (`canonical_json`, `keccak256_hex`, `compute_metadata_hash`);
* `trc8004_m2m/utils/retry.py` — retry policy, exponential backoff and the
  keyword-based error classifier (`RetryConfig`, `calculate_delay`,
  `is_retryable_error`, `retry_async`);
* `trc8004_m2m/blockchain/tron_client.py` — the feedback call shaper
  (`SENTIMENT_TO_INT`, `TronClient.give_feedback`);
* `trc8004_m2m/storage/ipfs.py` — gateway-fallback fetch and the URI
  transforms (`IPFSStorage.fetch`, `format_uri`, `extract_cid`);
* `trc8004_m2m/utils/chain_utils.py` — protocol-dispatching loader
  (`load_request_data`).

Modelling conventions: Python strings are Lean `String`s manipulated through
their `List Char` representation; byte strings are `List Nat` with every
entry `< 256`; Python floats in the retry policy are modelled as exact
rationals `ℚ`; the network, the filesystem and the wall clock are passed in
as explicit functional parameters; a raised exception is the `.error` case
of `Except String`, carrying the text `str(e)` of the exception (the only
attribute the embedded code inspects).
-/

namespace TRC8004

/-! ## Python string primitives

The SDK uses `str.lower()`, `str.startswith`, `str.replace`, `str.rstrip`
and the `in` substring test.  They are embedded here on `List Char`,
character-for-character as CPython implements them for the ASCII inputs the
SDK handles. -/

/-- Python `str.lower()` (ASCII case folding; the SDK only lowers ASCII
keywords and sentiment names). -/
def lowerString (s : String) : String :=
  (s.toList.map Char.toLower).asString

/-- Python `s.startswith(pre)`. -/
def pyStartsWith (pre s : String) : Bool :=
  pre.toList.isPrefixOf s.toList

/-- Python `needle in hay` (substring containment). -/
def containsSub (hay needle : String) : Bool :=
  hay.toList.tails.any (fun t => needle.toList.isPrefixOf t)

/-- Worker for Python `s.replace(pat, rep)`: scans left to right, replacing
each non-overlapping occurrence of `pat`.  The fuel argument (instantiated
with `s.length`, an upper bound on the number of scan steps) makes the
recursion structural. -/
def replaceAllAux (pat rep : List Char) : Nat → List Char → List Char
  | _, [] => []
  | 0, s => s
  | fuel + 1, c :: rest =>
    if pat ≠ [] ∧ pat.isPrefixOf (c :: rest) = true then
      rep ++ replaceAllAux pat rep fuel ((c :: rest).drop pat.length)
    else
      c :: replaceAllAux pat rep fuel rest

/-- Python `s.replace(pat, rep)` on character lists (for nonempty `pat`). -/
def replaceAll (pat rep s : List Char) : List Char :=
  replaceAllAux pat rep s.length s

/-- Python `s.replace(pat, rep)` on strings. -/
def pyReplace (pat rep s : String) : String :=
  (replaceAll pat.toList rep.toList s.toList).asString

/-- Python `s.replace(pat, rep, 1)`: replace only the first occurrence. -/
def replaceFirstList (pat rep : List Char) : List Char → List Char
  | [] => []
  | c :: rest =>
    if pat ≠ [] ∧ pat.isPrefixOf (c :: rest) = true then
      rep ++ (c :: rest).drop pat.length
    else
      c :: replaceFirstList pat rep rest

/-- Python `s.replace(pat, rep, 1)` on strings. -/
def pyReplaceFirst (pat rep s : String) : String :=
  (replaceFirstList pat.toList rep.toList s.toList).asString

/-- Python `s.rstrip` with the slash character. -/
def rstripSlash (s : String) : String :=
  ((s.toList.reverse.dropWhile (fun c => c = '/')).reverse).asString

/-! ## `trc8004_m2m/utils/retry.py` -/

/-- The two keyword groups of `is_retryable_error` ("Network errors"). -/
def NETWORK_KEYWORDS : List String :=
  ["timeout", "connection", "network", "unavailable", "refused"]

/-- The second keyword group of `is_retryable_error` ("RPC errors"). -/
def RPC_KEYWORDS : List String :=
  ["rpc", "node", "gateway"]

/-- `is_retryable_error(error)`: lowercase `str(error)` and test it for the
network keywords, then for the RPC keywords; `False` otherwise.  The
argument is the textual description `str(error)` of the exception. -/
def is_retryable_error (e : String) : Bool :=
  let error_str := lowerString e
  if NETWORK_KEYWORDS.any (fun k => containsSub error_str k) then true
  else if RPC_KEYWORDS.any (fun k => containsSub error_str k) then true
  else false

/-- `RetryConfig`: delays are modelled as exact rationals where the source
uses Python floats. -/
structure RetryConfig where
  max_attempts : Nat := 3
  base_delay : ℚ := 1
  max_delay : ℚ := 30
  exponential_base : ℚ := 2
  jitter : Bool := true

/-- `calculate_delay(attempt, config)`.  `u` models the result of
`random.uniform(-1, 1)` scaled into the jitter term: the source draws
`random.uniform(-jitter_range, jitter_range)` with
`jitter_range = delay * 0.1`, which is `u * (delay / 10)` for some
`u ∈ [-1, 1]`. -/
def calculate_delay (attempt : Nat) (config : RetryConfig) (u : ℚ) : ℚ :=
  if attempt ≤ 1 then 0
  else
    let delay := config.base_delay * config.exponential_base ^ (attempt - 2)
    let delay := min delay config.max_delay
    let delay := if config.jitter then delay + u * (delay / 10) else delay
    max 0 delay

/-- Observable outcome of one `retry_async`-wrapped call: the returned
value or raised error (`none` models the `None` fall-through when the
attempt loop never runs, i.e. `max_attempts = 0`), the index of the last
attempt that invoked the wrapped operation (= the number of invocations),
and the list of backoff delays slept between attempts. -/
structure RetryResult (α : Type) where
  outcome : Option (Except String α)
  attemptsMade : Nat
  sleeps : List ℚ
  deriving Repr

/-- The `for attempt in range(1, max_attempts + 1)` loop body of
the `wrapper` in `retry_async`.  `op k` is the outcome of invoking the wrapped
operation on attempt `k`; `u k` is the jitter sample drawn after attempt
`k`.  `fuel` counts the remaining loop iterations (entered with
`max_attempts`, mirroring the `range`). -/
def retryLoop (config : RetryConfig) (op : Nat → Except String α) (u : Nat → ℚ) :
    Nat → Nat → RetryResult α
  | attempt, 0 => ⟨none, attempt - 1, []⟩
  | attempt, fuel + 1 =>
    match op attempt with
    | .ok v => ⟨some (.ok v), attempt, []⟩
    | .error e =>
      if is_retryable_error e = false then
        ⟨some (.error e), attempt, []⟩
      else if config.max_attempts ≤ attempt then
        ⟨some (.error e), attempt, []⟩
      else
        let r := retryLoop config op u (attempt + 1) fuel
        ⟨r.outcome, r.attemptsMade,
          calculate_delay (attempt + 1) config (u attempt) :: r.sleeps⟩

/-- `retry_async(config)(func)(...)`: run the attempt loop from attempt 1. -/
def retry_async (config : RetryConfig) (op : Nat → Except String α)
    (u : Nat → ℚ) : RetryResult α :=
  retryLoop config op u 1 config.max_attempts

/-! ## `trc8004_m2m/utils/crypto.py`

JSON-representable documents are embedded as the inductive `Json`; numbers
are modelled as integers (the metadata documents of the SDK carry ints and
strings).  `canonical_json` reproduces
`json.dumps(data, separators=(",", ":"), sort_keys=True,
ensure_ascii=False).encode("utf-8")`: keys sorted by code point at every
nesting level, `,` and `:` separators with no whitespace, non-ASCII
characters emitted literally, UTF-8 bytes. -/

/-- A JSON value. -/
inductive Json where
  | null
  | bool (b : Bool)
  | num (n : Int)
  | str (s : String)
  | arr (elems : List Json)
  | obj (fields : List (String × Json))
  deriving Repr

/-- Lowercase hex digit, as produced by Python `hexdigest` and `%x`. -/
def hexDigit (n : Nat) : Char :=
  "0123456789abcdef".toList.getD n '0'

/-- How `json.dumps` (with `ensure_ascii=False`) escapes one character of a
JSON string: `"` and `\` are backslash-escaped, the usual control shortcuts
apply, remaining control characters become `\u00XX`, everything else is
emitted literally. -/
def escapeChar (c : Char) : List Char :=
  if c = '"' then ['\\', '"']
  else if c = '\\' then ['\\', '\\']
  else if c = '\n' then ['\\', 'n']
  else if c = '\t' then ['\\', 't']
  else if c = '\r' then ['\\', 'r']
  else if c.toNat = 8 then ['\\', 'b']
  else if c.toNat = 12 then ['\\', 'f']
  else if c.toNat < 32 then
    ['\\', 'u', '0', '0', hexDigit (c.toNat / 16), hexDigit (c.toNat % 16)]
  else [c]

/-- A JSON string literal: quotes around the escaped text. -/
def renderStr (s : String) : String :=
  "\"" ++ ((s.toList.map escapeChar).flatten).asString ++ "\""

/-- Code-point lexicographic `≤` on character lists — the Python `str`
comparison, which is what `sort_keys=True` sorts by. -/
def charListLeb : List Char → List Char → Bool
  | c :: cs, d :: ds =>
    if c.toNat < d.toNat then true
    else if d.toNat < c.toNat then false
    else charListLeb cs ds
  | [], _ => true
  | _ :: _, [] => false

/-- Python string `≤` (code-point lexicographic). -/
def keyLeb (a b : String) : Bool :=
  charListLeb a.toList b.toList

/-- Key order on key-value pairs: compare the keys only. -/
def pairLe {α : Type} (p q : String × α) : Prop :=
  keyLeb p.1 q.1 = true

instance {α : Type} : DecidableRel (@pairLe α) :=
  fun p q => inferInstanceAs (Decidable (keyLeb p.1 q.1 = true))

instance {α : Type} : IsTotal (String × α) pairLe :=
  ⟨fun p q => by
    have H : ∀ x y : List Char, charListLeb x y = true ∨ charListLeb y x = true := by
      intro x
      induction x with
      | nil => intro y; left; rfl
      | cons a as ih =>
        intro y
        cases y with
        | nil => right; rfl
        | cons b bs =>
          rcases Nat.lt_trichotomy a.toNat b.toNat with h | h | h
          · left; simp [charListLeb, h]
          · have h1 : ¬ a.toNat < b.toNat := by omega
            have h2 : ¬ b.toNat < a.toNat := by omega
            simpa [charListLeb, h1, h2] using ih bs
          · right; simp [charListLeb, h]
    exact H p.1.toList q.1.toList⟩

instance {α : Type} : IsTrans (String × α) pairLe :=
  ⟨fun p q r hpq hqr => by
    have H : ∀ x y z : List Char, charListLeb x y = true → charListLeb y z = true →
        charListLeb x z = true := by
      intro x
      induction x with
      | nil => intro y z _ _; rfl
      | cons a as ih =>
        intro y z hxy hyz
        cases y with
        | nil => simp [charListLeb] at hxy
        | cons b bs =>
          cases z with
          | nil => simp [charListLeb] at hyz
          | cons c cs =>
            rcases Nat.lt_trichotomy a.toNat b.toNat with hab | hab | hab
            · rcases Nat.lt_trichotomy b.toNat c.toNat with hbc | hbc | hbc
              · simp [charListLeb, show a.toNat < c.toNat by omega]
              · simp [charListLeb, show a.toNat < c.toNat by omega]
              · simp [charListLeb, show ¬ b.toNat < c.toNat by omega, hbc] at hyz
            · have h1 : ¬ a.toNat < b.toNat := by omega
              have h2 : ¬ b.toNat < a.toNat := by omega
              simp [charListLeb, h1, h2] at hxy
              rcases Nat.lt_trichotomy b.toNat c.toNat with hbc | hbc | hbc
              · simp [charListLeb, show a.toNat < c.toNat by omega]
              · have h3 : ¬ b.toNat < c.toNat := by omega
                have h4 : ¬ c.toNat < b.toNat := by omega
                simp [charListLeb, h3, h4] at hyz
                simp only [charListLeb, if_neg (show ¬ a.toNat < c.toNat by omega),
                  if_neg (show ¬ c.toNat < a.toNat by omega)]
                exact ih bs cs hxy hyz
              · simp [charListLeb, show ¬ b.toNat < c.toNat by omega, hbc] at hyz
            · simp [charListLeb, show ¬ a.toNat < b.toNat by omega, hab] at hxy
    exact H p.1.toList q.1.toList r.1.toList hpq hqr⟩

mutual

/-- The serializer inside `canonical_json`: `json.dumps` with
`separators=(",", ":")`, `sort_keys=True`, `ensure_ascii=False`. -/
def renderJson : Json → String
  | .null => "null"
  | .bool true => "true"
  | .bool false => "false"
  | .num n => toString n
  | .str s => renderStr s
  | .arr elems => "[" ++ String.intercalate "," (renderList elems) ++ "]"
  | .obj fields =>
      "\x7b" ++
        String.intercalate ","
          ((List.insertionSort pairLe (renderPairs fields)).map
            (fun kv => renderStr kv.1 ++ ":" ++ kv.2)) ++
      "\x7d"
termination_by j => sizeOf j

/-- Serialize each element of an array. -/
def renderList : List Json → List String
  | [] => []
  | x :: xs => renderJson x :: renderList xs
termination_by l => sizeOf l

/-- Serialize the value of each field of an object (keys untouched). -/
def renderPairs : List (String × Json) → List (String × String)
  | [] => []
  | (k, v) :: rest => (k, renderJson v) :: renderPairs rest
termination_by l => sizeOf l

end

mutual

/-- Key-order normal form of a document: sort the fields of every object by
key, recursively.  Two Python dicts that are equal as mappings — same keys
bound to (recursively) equal values, whatever the insertion order — have
the same normal form, and conversely. -/
def normalizeJson : Json → Json
  | .arr elems => .arr (normalizeList elems)
  | .obj fields => .obj (List.insertionSort pairLe (normalizePairs fields))
  | j => j
termination_by j => sizeOf j

/-- Normalize each element of an array. -/
def normalizeList : List Json → List Json
  | [] => []
  | x :: xs => normalizeJson x :: normalizeList xs
termination_by l => sizeOf l

/-- Normalize the value of each field. -/
def normalizePairs : List (String × Json) → List (String × Json)
  | [] => []
  | (k, v) :: rest => (k, normalizeJson v) :: normalizePairs rest
termination_by l => sizeOf l

end

/-- UTF-8 encoding of one code point. -/
def utf8EncodeChar (n : Nat) : List Nat :=
  if n < 0x80 then [n]
  else if n < 0x800 then
    [0xC0 ||| (n >>> 6), 0x80 ||| (n &&& 0x3F)]
  else if n < 0x10000 then
    [0xE0 ||| (n >>> 12), 0x80 ||| ((n >>> 6) &&& 0x3F), 0x80 ||| (n &&& 0x3F)]
  else
    [0xF0 ||| (n >>> 18), 0x80 ||| ((n >>> 12) &&& 0x3F),
      0x80 ||| ((n >>> 6) &&& 0x3F), 0x80 ||| (n &&& 0x3F)]

/-- Python `str.encode("utf-8")`, as a byte list. -/
def utf8Encode (s : String) : List Nat :=
  (s.toList.map (fun c => utf8EncodeChar c.toNat)).flatten

/-- `canonical_json(data)`: canonical serialization, UTF-8 encoded. -/
def canonical_json (data : Json) : List Nat :=
  utf8Encode (renderJson data)

/-! ### Keccak-256 (`Crypto.Hash.keccak`, `digest_bits=256`)

The external hash used by `keccak256_hex`; lanes are `Nat`s kept below
`2 ^ 64` by explicit masking. -/

/-- The 24 round constants of Keccak-f[1600] (decimal). -/
def KECCAK_RC : List Nat :=
  [1, 32898, 9223372036854808714,
   9223372039002292224, 32907, 2147483649,
   9223372039002292353, 9223372036854808585, 138,
   136, 2147516425, 2147483658,
   2147516555, 9223372036854775947, 9223372036854808713,
   9223372036854808579, 9223372036854808578, 9223372036854775936,
   32778, 9223372039002259466, 9223372039002292353,
   9223372036854808704, 2147483649, 9223372039002292232]

/-- Rotation offsets `r[x][y]` at index `x + 5 * y`, one row (fixed `y`)
per list. -/
def RHO_OFFSETS : List Nat :=
  [0, 1, 62, 28, 27] ++ [36, 44, 6, 55, 20] ++ [3, 10, 43, 25, 39] ++
    [41, 45, 15, 21, 8] ++ [18, 2, 61, 56, 14]

/-- Rotate a 64-bit lane left by `k`. -/
def rotl64 (n k : Nat) : Nat :=
  ((n <<< (k % 64)) % 2 ^ 64) ||| (n >>> (64 - k % 64))

/-- Keccak θ step. -/
def keccakTheta (A : List Nat) : List Nat :=
  let C := (List.range 5).map (fun x =>
    ((((A.getD x 0) ^^^ (A.getD (x + 5) 0)) ^^^ (A.getD (x + 10) 0)) ^^^
      (A.getD (x + 15) 0)) ^^^ (A.getD (x + 20) 0))
  let D := (List.range 5).map (fun x =>
    (C.getD ((x + 4) % 5) 0) ^^^ rotl64 (C.getD ((x + 1) % 5) 0) 1)
  (List.range 25).map (fun i => (A.getD i 0) ^^^ (D.getD (i % 5) 0))

/-- Keccak ρ and π steps: `B[y, (2x+3y) mod 5] = rot(A[x, y], r[x, y])`. -/
def keccakRhoPi (A : List Nat) : List Nat :=
  (List.range 25).map (fun j =>
    let colX := j % 5
    let rowY := j / 5
    let x := (colX + 3 * rowY) % 5
    let y := colX
    rotl64 (A.getD (x + 5 * y) 0) (RHO_OFFSETS.getD (x + 5 * y) 0))

/-- Keccak χ step. -/
def keccakChi (B : List Nat) : List Nat :=
  (List.range 25).map (fun j =>
    let colX := j % 5
    let rowY := j / 5
    (B.getD j 0) ^^^
      (((B.getD ((colX + 1) % 5 + 5 * rowY) 0) ^^^ (2 ^ 64 - 1)) &&&
        (B.getD ((colX + 2) % 5 + 5 * rowY) 0)))

/-- One Keccak-f round (θ, ρ, π, χ, ι). -/
def keccakRound (A : List Nat) (rc : Nat) : List Nat :=
  let C := keccakChi (keccakRhoPi (keccakTheta A))
  C.set 0 ((C.getD 0 0) ^^^ rc)

/-- The Keccak-f[1600] permutation: 24 rounds. -/
def keccakF (A : List Nat) : List Nat :=
  KECCAK_RC.foldl keccakRound A

/-- Original Keccak padding (`0x01 … 0x80`) to the 136-byte rate. -/
def keccakPad (msg : List Nat) : List Nat :=
  let q := 136 - msg.length % 136
  if q = 1 then msg ++ [0x81]
  else msg ++ [0x01] ++ List.replicate (q - 2) 0 ++ [0x80]

/-- Little-endian bytes to a 64-bit lane. -/
def bytesToLane (bs : List Nat) : Nat :=
  bs.foldr (fun b acc => b + 256 * acc) 0

/-- Absorb one 136-byte block into the state and permute. -/
def absorbBlock (A block : List Nat) : List Nat :=
  let lanes := (List.range 17).map (fun i => bytesToLane ((block.drop (8 * i)).take 8))
  keccakF ((List.range 25).map (fun i => (A.getD i 0) ^^^ (lanes.getD i 0)))

/-- Split into 136-byte blocks (fuel-structural; called with enough fuel). -/
def chunks136 : Nat → List Nat → List (List Nat)
  | 0, _ => []
  | _, [] => []
  | fuel + 1, l => l.take 136 :: chunks136 fuel (l.drop 136)

/-- A 64-bit lane as 8 little-endian bytes. -/
def laneToBytes (n : Nat) : List Nat :=
  (List.range 8).map (fun k => (n >>> (8 * k)) % 256)

/-- Keccak-256 digest (32 bytes) of a byte string. -/
def keccak256 (data : List Nat) : List Nat :=
  let padded := keccakPad data
  let final := (chunks136 padded.length padded).foldl absorbBlock (List.replicate 25 0)
  ((List.range 4).map (fun i => laneToBytes (final.getD i 0))).flatten

/-- Bytes to lowercase hex. -/
def bytesToHex (bs : List Nat) : String :=
  ((bs.map (fun b => [hexDigit (b / 16), hexDigit (b % 16)])).flatten).asString

/-- `keccak256_hex(data)`: `0x`-prefixed lowercase hex digest. -/
def keccak256_hex (data : List Nat) : String :=
  "0x" ++ bytesToHex (keccak256 data)

/-- `compute_metadata_hash(metadata)`:
`keccak256_hex(canonical_json(metadata))`. -/
def compute_metadata_hash (metadata : Json) : String :=
  keccak256_hex (canonical_json metadata)

/-! ## `trc8004_m2m/blockchain/tron_client.py` — the feedback call shaper -/

/-- One positional argument of a contract call. -/
inductive TxParam where
  | int (n : Int)
  | str (s : String)
  | bytes (b : List Nat)
  deriving Repr, DecidableEq

/-- A contract invocation handed to `_send_transaction`: registry name,
contract function name, positional parameter list. -/
structure Invocation where
  contract : String
  method : String
  params : List TxParam
  deriving Repr, DecidableEq

/-- `SENTIMENT_TO_INT = {"neutral": 0, "positive": 1, "negative": 2}`,
accessed with `.get` (so `none` for any other key). -/
def SENTIMENT_TO_INT (s : String) : Option Int :=
  if s = "neutral" then some 0
  else if s = "positive" then some 1
  else if s = "negative" then some 2
  else none

/-- `b"\x00" * 32`, the zero-hash sentinel. -/
def zero32 : List Nat := List.replicate 32 0

/-- The arguments of `TronClient.give_feedback`, with the default
values for the optional fields that the source declares. -/
structure FeedbackArgs where
  agent_id : Nat
  feedback_text : String
  sentiment : String
  value : Int := 0
  value_decimals : Nat := 0
  tag1 : String := ""
  tag2 : String := ""
  endpoint : String := ""
  feedback_uri : String := ""
  feedback_hash : List Nat := zero32

/-- `TronClient.give_feedback`.  `.error` models the `ContractError` raised
for an unknown sentiment (in which case `_send_transaction` is never
reached, so no invocation is produced); `.ok inv` models the single
transaction submitted.  `has_erc8004_fields` is Python truthiness:
a numeric field counts when nonzero, a string when nonempty, and the hash
when it differs from the 32-zero-byte sentinel. -/
def give_feedback (a : FeedbackArgs) : Except String Invocation :=
  match SENTIMENT_TO_INT (lowerString a.sentiment) with
  | none =>
    .error ("Invalid sentiment: " ++ a.sentiment ++
      ". Must be positive/neutral/negative")
  | some sentiment_int =>
    if a.value ≠ 0 ∨ a.value_decimals ≠ 0 ∨ a.tag1 ≠ "" ∨ a.tag2 ≠ "" ∨
        a.endpoint ≠ "" ∨ a.feedback_uri ≠ "" ∨ a.feedback_hash ≠ zero32 then
      .ok ⟨"reputation", "giveFeedback",
        [.int a.agent_id, .str a.feedback_text, .int sentiment_int,
         .int a.value, .int a.value_decimals, .str a.tag1, .str a.tag2,
         .str a.endpoint, .str a.feedback_uri, .bytes a.feedback_hash]⟩
    else
      .ok ⟨"reputation", "giveFeedback",
        [.int a.agent_id, .str a.feedback_text, .int sentiment_int]⟩

/-! ## `trc8004_m2m/storage/ipfs.py`

The HTTP world is a function `net : String → Except String Json` from URL
to parsed response (`.error e` models any exception raised by the request,
carrying `str(e)`). -/

/-- `IPFSStorage.DEFAULT_GATEWAYS`. -/
def DEFAULT_GATEWAYS : List String :=
  ["https://ipfs.io/ipfs",
   "https://gateway.pinata.cloud/ipfs",
   "https://cloudflare-ipfs.com/ipfs"]

/-- The configuration of one `IPFSStorage` instance after `__init__`:
`gateway_url` is the constructor argument, or `DEFAULT_GATEWAYS[0]` when
none was given. -/
structure IPFSStorage where
  gateway_url : String

/-- The gateway request URL: the gateway base, trailing slashes stripped,
then a slash, then the CID. -/
def gatewayRequestUrl (gateway cid : String) : String :=
  rstripSlash gateway ++ "/" ++ cid

/-- The ordered gateway list built by `fetch`:
`[self.gateway_url] + [g for g in DEFAULT_GATEWAYS if g != self.gateway_url]`. -/
def fetchGateways (st : IPFSStorage) : List String :=
  st.gateway_url :: DEFAULT_GATEWAYS.filter (fun g => g ≠ st.gateway_url)

/-- The CID extraction at the top of `fetch` (and `extract_cid`):
strip the `ipfs://` scheme via `str.replace`, else use the input as CID. -/
def fetchCid (uri : String) : String :=
  if pyStartsWith "ipfs://" uri then pyReplace "ipfs://" "" uri else uri

/-- The `for gateway in gateways` loop of `fetch`, with the running
`last_error` (initially `None`): return the parsed response of the first
reachable gateway;
remember the error and move on otherwise; when the list is
exhausted raise the `StorageError` text `All IPFS gateways failed: ` followed
by the last error. -/
def tryGateways (net : String → Except String Json) (cid : String) :
    List String → Option String → Except String Json
  | [], last =>
    .error ("All IPFS gateways failed: " ++
      (match last with | some e => e | none => "None"))
  | g :: rest, _last =>
    match net (gatewayRequestUrl g cid) with
    | .ok v => .ok v
    | .error e => tryGateways net cid rest (some e)

/-- `IPFSStorage.fetch(uri)` (the body inside the retry decorator). -/
def fetch (st : IPFSStorage) (net : String → Except String Json)
    (uri : String) : Except String Json :=
  tryGateways net (fetchCid uri) (fetchGateways st) none

/-- `IPFSStorage.format_uri(cid)`: the scheme marker `ipfs://` followed by
the CID. -/
def format_uri (cid : String) : String :=
  "ipfs://" ++ cid

/-- `IPFSStorage.extract_cid(uri)`: strip the scheme when present
(via `str.replace`, which removes every occurrence), else pass through. -/
def extract_cid (uri : String) : String :=
  if pyStartsWith "ipfs://" uri then pyReplace "ipfs://" "" uri else uri

/-! ## `trc8004_m2m/utils/chain_utils.py` — `load_request_data`

The filesystem is `fileRead : String → Except String String` (path to
contents, `.error` a `FileNotFoundError`); the HTTP world is
`net : String → Except String String` (URL to response text);
`gatewayEnv` is `os.getenv("IPFS_GATEWAY_URL")`. -/

/-- `load_request_data(request_uri)`: dispatch on the URI scheme; a URI
matching no known scheme is returned unchanged. -/
def load_request_data (fileRead : String → Except String String)
    (net : String → Except String String) (gatewayEnv : Option String)
    (request_uri : String) : Except String String :=
  if pyStartsWith "file://" request_uri then
    let path := pyReplaceFirst "file://" "" request_uri
    match fileRead path with
    | .ok contents => .ok contents
    | .error _ => .error ("File not found: " ++ path)
  else if pyStartsWith "ipfs://" request_uri then
    let cid := pyReplaceFirst "ipfs://" "" request_uri
    let gateway := gatewayEnv.getD "https://ipfs.io/ipfs"
    match net (rstripSlash gateway ++ "/" ++ cid) with
    | .ok t => .ok t
    | .error e => .error ("Failed to fetch from IPFS: " ++ e)
  else if pyStartsWith "http://" request_uri ∨ pyStartsWith "https://" request_uri then
    match net request_uri with
    | .ok t => .ok t
    | .error e => .error ("Failed to fetch from URL: " ++ e)
  else
    .ok request_uri

/-- Structural induction for the nested inductive `Json`, with pointwise
hypotheses for array elements and object field values. -/
def Json.inductionOn (P : Json → Prop)
    (hnull : P .null) (hbool : ∀ b, P (.bool b)) (hnum : ∀ n, P (.num n))
    (hstr : ∀ s, P (.str s))
    (harr : ∀ elems, (∀ x ∈ elems, P x) → P (.arr elems))
    (hobj : ∀ fields, (∀ kv ∈ fields, P kv.2) → P (.obj fields)) :
    ∀ j, P j
  | .null => hnull
  | .bool b => hbool b
  | .num n => hnum n
  | .str s => hstr s
  | .arr elems => harr elems (fun x hx =>
      Json.inductionOn P hnull hbool hnum hstr harr hobj x)
  | .obj fields => hobj fields (fun kv hkv =>
      Json.inductionOn P hnull hbool hnum hstr harr hobj kv.2)
termination_by j => sizeOf j
decreasing_by
  · have h1 := List.sizeOf_lt_of_mem hx
    simp only [Json.arr.sizeOf_spec]
    omega
  · have h1 := List.sizeOf_lt_of_mem hkv
    obtain ⟨k, v⟩ := kv
    simp only [Json.obj.sizeOf_spec, Prod.mk.sizeOf_spec] at *
    omega

/-! ## Helper lemmas -/

theorem renderList_eq_map (l : List Json) :
    renderList l = l.map renderJson := by
  induction l with
  | nil => simp [renderList]
  | cons x xs ih => simp [renderList, ih]

theorem renderPairs_eq_map (l : List (String × Json)) :
    renderPairs l = l.map (fun kv => (kv.1, renderJson kv.2)) := by
  induction l with
  | nil => simp [renderPairs]
  | cons kv rest ih => obtain ⟨k, v⟩ := kv; simp [renderPairs, ih]

theorem normalizeList_eq_map (l : List Json) :
    normalizeList l = l.map normalizeJson := by
  induction l with
  | nil => simp [normalizeList]
  | cons x xs ih => simp [normalizeList, ih]

theorem normalizePairs_eq_map (l : List (String × Json)) :
    normalizePairs l = l.map (fun kv => (kv.1, normalizeJson kv.2)) := by
  induction l with
  | nil => simp [normalizePairs]
  | cons kv rest ih => obtain ⟨k, v⟩ := kv; simp [normalizePairs, ih]

theorem orderedInsert_map_val {β γ : Type} (g : β → γ) (a : String × β)
    (l : List (String × β)) :
    (List.orderedInsert pairLe a l).map (fun kv => (kv.1, g kv.2)) =
      List.orderedInsert pairLe (a.1, g a.2) (l.map (fun kv => (kv.1, g kv.2))) := by
  induction l with
  | nil => simp [List.orderedInsert]
  | cons b t ih =>
    simp only [List.orderedInsert, List.map_cons]
    have hcond : pairLe (a.1, g a.2) (b.1, g b.2) ↔ pairLe a b := Iff.rfl
    by_cases h : pairLe a b
    · rw [if_pos h, if_pos (hcond.mpr h)]
      simp
    · rw [if_neg h, if_neg (fun hc => h (hcond.mp hc))]
      simp [ih]

theorem insertionSort_map_val {β γ : Type} (g : β → γ) (l : List (String × β)) :
    (List.insertionSort pairLe l).map (fun kv => (kv.1, g kv.2)) =
      List.insertionSort pairLe (l.map (fun kv => (kv.1, g kv.2))) := by
  induction l with
  | nil => simp [List.insertionSort]
  | cons a t ih =>
    simp only [List.insertionSort, List.map_cons]
    rw [orderedInsert_map_val, ih]

theorem insertionSort_pairLe_idem {β : Type} (l : List (String × β)) :
    List.insertionSort pairLe (List.insertionSort pairLe l) =
      List.insertionSort pairLe l :=
  List.Sorted.insertionSort_eq (List.sorted_insertionSort pairLe l)

theorem renderJson_normalizeJson (j : Json) :
    renderJson (normalizeJson j) = renderJson j := by
  induction j using Json.inductionOn with
  | hnull => simp [normalizeJson]
  | hbool b => cases b <;> simp [normalizeJson]
  | hnum n => simp [normalizeJson]
  | hstr s => simp [normalizeJson]
  | harr elems ih =>
    have h2 : renderList (normalizeList elems) = renderList elems := by
      rw [renderList_eq_map, normalizeList_eq_map, List.map_map, renderList_eq_map]
      exact List.map_congr_left (fun x hx => by simp [ih x hx])
    simp only [normalizeJson, renderJson, h2]
  | hobj fields ih =>
    have h2 : renderPairs (List.insertionSort pairLe (normalizePairs fields)) =
        List.insertionSort pairLe (renderPairs fields) := by
      rw [renderPairs_eq_map, insertionSort_map_val, normalizePairs_eq_map,
        List.map_map, renderPairs_eq_map]
      congr 1
      exact List.map_congr_left (fun kv hkv => by simp [ih kv hkv])
    simp only [normalizeJson, renderJson, h2, insertionSort_pairLe_idem]

/-! ## Claims -/

/-- C1: two key-value mappings that are equal as mappings — the same keys
bound to the same values at every nesting level, i.e. the same key-order
normal form — however their keys were ordered by insertion, have
byte-identical `canonical_json` output and the identical
`compute_metadata_hash` digest string. -/
theorem canonical_json_order_invariant (a b : Json)
    (h : normalizeJson a = normalizeJson b) :
    canonical_json a = canonical_json b ∧
      compute_metadata_hash a = compute_metadata_hash b := by
  have hr : renderJson a = renderJson b := by
    rw [← renderJson_normalizeJson a, ← renderJson_normalizeJson b, h]
  exact ⟨by rw [canonical_json, canonical_json, hr],
    by rw [compute_metadata_hash, compute_metadata_hash, canonical_json,
      canonical_json, hr]⟩

/-- Witness for C1: a two-level document with both nesting levels permuted
against the reference insertion order. -/
theorem canonical_json_order_invariant_witness :
    normalizeJson (Json.obj [("b", Json.num 2),
        ("a", Json.obj [("y", Json.num 1), ("x", Json.num 0)])]) =
      normalizeJson (Json.obj [("a", Json.obj [("x", Json.num 0), ("y", Json.num 1)]),
        ("b", Json.num 2)]) ∧
    canonical_json (Json.obj [("b", Json.num 2),
        ("a", Json.obj [("y", Json.num 1), ("x", Json.num 0)])]) =
      canonical_json (Json.obj [("a", Json.obj [("x", Json.num 0), ("y", Json.num 1)]),
        ("b", Json.num 2)]) := by
  have h : normalizeJson (Json.obj [("b", Json.num 2),
        ("a", Json.obj [("y", Json.num 1), ("x", Json.num 0)])]) =
      normalizeJson (Json.obj [("a", Json.obj [("x", Json.num 0), ("y", Json.num 1)]),
        ("b", Json.num 2)]) := by
    simp [normalizeJson, normalizePairs, List.insertionSort, List.orderedInsert,
      pairLe, keyLeb, charListLeb]
  exact ⟨h, (canonical_json_order_invariant _ _ h).1⟩

/-- C9: canonical serialization is minimal JSON — `{"b": 2, "a": 1}`
serializes to exactly the thirteen bytes `{"a":1,"b":2}` (sorted keys, `,`
and `:` separators, no whitespace); a non-ASCII character is emitted as
its literal UTF-8 bytes (`é` as `0xC3 0xA9`, not `\u`-escaped); and the
emitted key sequence of any object is sorted ascending. -/
theorem canonical_json_minimal :
    canonical_json (Json.obj [("b", Json.num 2), ("a", Json.num 1)]) =
      [123, 34, 97, 34, 58, 49, 44, 34, 98, 34, 58, 50, 125] ∧
    canonical_json (Json.obj [("k", Json.str "é")]) =
      [123, 34, 107, 34, 58, 34, 195, 169, 34, 125] ∧
    (∀ fields : List (String × Json),
      List.Sorted (fun x y : String => keyLeb x y = true)
        ((List.insertionSort pairLe (renderPairs fields)).map Prod.fst)) := by
  refine ⟨?_, ?_, ?_⟩
  · simp [canonical_json, renderJson, renderPairs, renderStr, escapeChar,
      List.insertionSort, List.orderedInsert, pairLe, keyLeb, charListLeb]
    decide
  · simp [canonical_json, renderJson, renderPairs, renderStr, escapeChar,
      List.insertionSort, List.orderedInsert, pairLe, keyLeb, charListLeb]
    decide
  · intro fields
    rw [List.Sorted, List.pairwise_map]
    exact List.sorted_insertionSort pairLe (renderPairs fields)

/-- C3: with `base_delay ≥ 0`, `max_delay ≥ base_delay` and
`exponential_base > 1`, the pre-jitter backoff delay is `0` for attempts
`≤ 1`, equals `min(max_delay, base_delay * exponential_base ^ (a - 2))`
for attempts `a ≥ 2` (so attempt 2 waits `base_delay`), is non-decreasing
in the attempt number, and never exceeds `max_delay`. -/
theorem calculate_delay_backoff (config : RetryConfig) (u : ℚ)
    (hbase : 0 ≤ config.base_delay)
    (hmax : config.base_delay ≤ config.max_delay)
    (hexp : 1 < config.exponential_base)
    (hj : config.jitter = false) :
    (∀ a, a ≤ 1 → calculate_delay a config u = 0) ∧
    (∀ a, 2 ≤ a → calculate_delay a config u =
      min config.max_delay
        (config.base_delay * config.exponential_base ^ (a - 2))) ∧
    (∀ a, calculate_delay a config u ≤ calculate_delay (a + 1) config u) ∧
    (∀ a, calculate_delay a config u ≤ config.max_delay) := by
  have hm0 : (0 : ℚ) ≤ config.max_delay := le_trans hbase hmax
  have hpow : ∀ k : Nat, (0 : ℚ) ≤ config.base_delay * config.exponential_base ^ k :=
    fun k => mul_nonneg hbase (pow_nonneg (by linarith) k)
  have p1 : ∀ a, a ≤ 1 → calculate_delay a config u = 0 := by
    intro a ha
    simp [calculate_delay, ha]
  have p2 : ∀ a, 2 ≤ a → calculate_delay a config u =
      min config.max_delay
        (config.base_delay * config.exponential_base ^ (a - 2)) := by
    intro a ha
    have hna : ¬ a ≤ 1 := by omega
    simp only [calculate_delay, if_neg hna, hj, Bool.false_eq_true, if_false]
    rw [max_eq_right (le_min (hpow (a - 2)) hm0), min_comm]
  have p4 : ∀ a, calculate_delay a config u ≤ config.max_delay := by
    intro a
    by_cases ha : a ≤ 1
    · rw [p1 a ha]; exact hm0
    · rw [p2 a (by omega)]; exact min_le_left _ _
  have p3 : ∀ a, calculate_delay a config u ≤ calculate_delay (a + 1) config u := by
    intro a
    by_cases ha : a ≤ 1
    · rw [p1 a ha]
      by_cases ha1 : a + 1 ≤ 1
      · rw [p1 (a + 1) ha1]
      · rw [p2 (a + 1) (by omega)]
        exact le_min hm0 (hpow _)
    · rw [p2 a (by omega), p2 (a + 1) (by omega)]
      refine min_le_min le_rfl ?_
      refine mul_le_mul_of_nonneg_left ?_ hbase
      exact pow_le_pow_right₀ (le_of_lt hexp) (by omega)
  exact ⟨p1, p2, p3, p4⟩

/-- Witness for C3, at the default configuration of the SDK (jitter off):
attempt 1 never delays, attempt 2 waits `base_delay = 1`, and no delay
exceeds `max_delay = 30`. -/
theorem calculate_delay_backoff_witness :
    calculate_delay 1 ⟨3, 1, 30, 2, false⟩ 0 = 0 ∧
    calculate_delay 2 ⟨3, 1, 30, 2, false⟩ 0 = min 30 (1 * 2 ^ 0) ∧
    calculate_delay 7 ⟨3, 1, 30, 2, false⟩ 0 ≤ 30 := by
  have h := calculate_delay_backoff ⟨3, 1, 30, 2, false⟩ 0
    (by norm_num) (by norm_num) (by norm_num) rfl
  exact ⟨h.1 1 le_rfl, h.2.1 2 le_rfl, h.2.2.2 7⟩

/-- The boolean substring test agrees with `List.IsInfix`. -/
theorem containsSub_iff (hay needle : String) :
    containsSub hay needle = true ↔ needle.toList <:+: hay.toList := by
  constructor
  · intro h
    simp only [containsSub, List.any_eq_true] at h
    obtain ⟨t, ht, hp⟩ := h
    rw [List.mem_tails] at ht
    rw [List.isPrefixOf_iff_prefix] at hp
    exact List.infix_iff_prefix_suffix.mpr ⟨t, hp, ht⟩
  · intro h
    obtain ⟨t, hp, ht⟩ := List.infix_iff_prefix_suffix.mp h
    simp only [containsSub, List.any_eq_true]
    exact ⟨t, (List.mem_tails _ _).mpr ht, List.isPrefixOf_iff_prefix.mpr hp⟩

/-- C6: an error is classified retryable exactly when its lowercased
textual description contains one of the eight keywords (timeout,
connection, network, unavailable, refused, rpc, node, gateway); every
other error is fatal. -/
theorem is_retryable_error_keyword_iff (e : String) :
    is_retryable_error e = true ↔
      ∃ kw ∈ NETWORK_KEYWORDS ++ RPC_KEYWORDS,
        kw.toList <:+: (lowerString e).toList := by
  have heq : is_retryable_error e =
      ((NETWORK_KEYWORDS.any fun k => containsSub (lowerString e) k) ||
        (RPC_KEYWORDS.any fun k => containsSub (lowerString e) k)) := by
    unfold is_retryable_error
    by_cases h1 : (NETWORK_KEYWORDS.any fun k => containsSub (lowerString e) k) = true <;>
      by_cases h2 : (RPC_KEYWORDS.any fun k => containsSub (lowerString e) k) = true <;>
      simp [h1, h2]
  rw [heq]
  simp only [Bool.or_eq_true, List.any_eq_true, List.mem_append]
  constructor
  · rintro (⟨kw, hkw, hc⟩ | ⟨kw, hkw, hc⟩)
    · exact ⟨kw, Or.inl hkw, (containsSub_iff _ _).mp hc⟩
    · exact ⟨kw, Or.inr hkw, (containsSub_iff _ _).mp hc⟩
  · rintro ⟨kw, hkw | hkw, hc⟩
    · exact Or.inl ⟨kw, hkw, (containsSub_iff _ _).mpr hc⟩
    · exact Or.inr ⟨kw, hkw, (containsSub_iff _ _).mpr hc⟩

/-- Invariant of the attempt loop when every invocation raises a
retryable error: started at `attempt` with the fuel that `range` leaves
for it, it finishes at attempt `max_attempts` carrying the error of that
attempt. -/
theorem retryLoop_always_retryable {α : Type} (config : RetryConfig)
    (op : Nat → Except String α) (u : Nat → ℚ) (err : Nat → String)
    (hop : ∀ k, op k = .error (err k))
    (hretry : ∀ k, is_retryable_error (err k) = true) :
    ∀ fuel attempt, attempt + fuel = config.max_attempts + 1 → 1 ≤ attempt →
      attempt ≤ config.max_attempts →
      (retryLoop config op u attempt fuel).outcome =
          some (.error (err config.max_attempts)) ∧
        (retryLoop config op u attempt fuel).attemptsMade = config.max_attempts := by
  intro fuel
  induction fuel with
  | zero => intro attempt h1 _ h3; omega
  | succ n ih =>
    intro attempt h1 h2 h3
    by_cases hmaxed : config.max_attempts ≤ attempt
    · have ha : attempt = config.max_attempts := by omega
      subst ha
      simp [retryLoop, hop, hretry, hmaxed]
    · have hrec := ih (attempt + 1) (by omega) (by omega) (by omega)
      simp [retryLoop, hop attempt, hretry attempt, hmaxed]
      exact hrec

/-- C2: for `max_attempts = N ≥ 1`, an operation that raises a retryable
error on every invocation is invoked exactly `N` times and the wrapper
re-raises the error of invocation `N` unchanged; an operation whose
first invocation raises a fatal (non-retryable) error is invoked exactly
once and that error is re-raised immediately, with no backoff sleep. -/
theorem retry_async_bounds {α : Type} (config : RetryConfig)
    (op : Nat → Except String α) (u : Nat → ℚ) (err : Nat → String)
    (hN : 1 ≤ config.max_attempts) :
    ((∀ k, op k = .error (err k)) → (∀ k, is_retryable_error (err k) = true) →
      (retry_async config op u).outcome =
          some (.error (err config.max_attempts)) ∧
        (retry_async config op u).attemptsMade = config.max_attempts) ∧
    (∀ e, op 1 = .error e → is_retryable_error e = false →
      retry_async config op u = ⟨some (.error e), 1, []⟩) := by
  constructor
  · intro hop hretry
    exact retryLoop_always_retryable config op u err hop hretry
      config.max_attempts 1 (by omega) le_rfl hN
  · intro e hop hfatal
    obtain ⟨m, hm⟩ : ∃ m, config.max_attempts = m + 1 := ⟨config.max_attempts - 1, by omega⟩
    rw [retry_async, hm]
    simp [retryLoop, hop, hfatal]

/-- Witness for C2, at `max_attempts = 3`: a permanently timing-out
operation is invoked three times and raises the third timeout; a
malformed-input failure is raised from the sole invocation with no
sleeps. -/
theorem retry_async_bounds_witness :
    ((retry_async ⟨3, 1, 30, 2, false⟩
        (fun _ => (.error "connection timeout" : Except String Unit))
        (fun _ => 0)).outcome = some (.error "connection timeout") ∧
      (retry_async ⟨3, 1, 30, 2, false⟩
        (fun _ => (.error "connection timeout" : Except String Unit))
        (fun _ => 0)).attemptsMade = 3) ∧
    retry_async ⟨3, 1, 30, 2, false⟩
        (fun _ => (.error "bad address" : Except String Unit))
        (fun _ => 0) =
      ⟨some (.error "bad address"), 1, []⟩ := by
  constructor
  · exact (retry_async_bounds ⟨3, 1, 30, 2, false⟩ _ _
      (fun _ => "connection timeout") (by norm_num)).1
      (fun _ => rfl) (fun _ => by decide)
  · exact (retry_async_bounds ⟨3, 1, 30, 2, false⟩ _ _ (fun _ => "")
      (by norm_num)).2 "bad address" rfl (by decide)

/-- All optional fields of `give_feedback` are at their documented
defaults. -/
def defaultOptionalFields (a : FeedbackArgs) : Prop :=
  a.value = 0 ∧ a.value_decimals = 0 ∧ a.tag1 = "" ∧ a.tag2 = "" ∧
    a.endpoint = "" ∧ a.feedback_uri = "" ∧ a.feedback_hash = zero32

instance (a : FeedbackArgs) : Decidable (defaultOptionalFields a) :=
  inferInstanceAs (Decidable (_ ∧ _))

/-- C4: with an accepted sentiment, `give_feedback` submits the 3-field
legacy parameter list when every optional field is at its documented
default, and the 10-field extended list — in the fixed extended order,
with the still-unset fields at their defaults (the unset hash as 32 zero
bytes) — when any optional field differs from its default. -/
theorem give_feedback_shape (a : FeedbackArgs) (code : Int)
    (hs : SENTIMENT_TO_INT (lowerString a.sentiment) = some code) :
    (defaultOptionalFields a →
      give_feedback a = .ok ⟨"reputation", "giveFeedback",
        [.int a.agent_id, .str a.feedback_text, .int code]⟩) ∧
    (¬ defaultOptionalFields a →
      give_feedback a = .ok ⟨"reputation", "giveFeedback",
        [.int a.agent_id, .str a.feedback_text, .int code, .int a.value,
         .int a.value_decimals, .str a.tag1, .str a.tag2, .str a.endpoint,
         .str a.feedback_uri, .bytes a.feedback_hash]⟩) := by
  have hC : (a.value ≠ 0 ∨ a.value_decimals ≠ 0 ∨ a.tag1 ≠ "" ∨ a.tag2 ≠ "" ∨
      a.endpoint ≠ "" ∨ a.feedback_uri ≠ "" ∨ a.feedback_hash ≠ zero32) ↔
      ¬ defaultOptionalFields a := by
    unfold defaultOptionalFields
    tauto
  constructor
  · intro hd
    have hno : ¬ (a.value ≠ 0 ∨ a.value_decimals ≠ 0 ∨ a.tag1 ≠ "" ∨ a.tag2 ≠ "" ∨
        a.endpoint ≠ "" ∨ a.feedback_uri ≠ "" ∨ a.feedback_hash ≠ zero32) :=
      fun h => (hC.mp h) hd
    simp only [give_feedback, hs]
    rw [if_neg hno]
  · intro hd
    simp only [give_feedback, hs]
    rw [if_pos (hC.mpr hd)]

/-- Witness for C4: all-default arguments go legacy; the same arguments
with only `tag1 = "x"` set go extended with every other optional field at
its default. -/
theorem give_feedback_shape_witness :
    give_feedback ⟨7, "good", "positive", 0, 0, "", "", "", "", zero32⟩ =
      .ok ⟨"reputation", "giveFeedback", [.int 7, .str "good", .int 1]⟩ ∧
    give_feedback ⟨7, "good", "positive", 0, 0, "x", "", "", "", zero32⟩ =
      .ok ⟨"reputation", "giveFeedback",
        [.int 7, .str "good", .int 1, .int 0, .int 0, .str "x", .str "",
         .str "", .str "", .bytes zero32]⟩ := by
  constructor
  · exact (give_feedback_shape ⟨7, "good", "positive", 0, 0, "", "", "", "", zero32⟩
      1 (by decide)).1 (by decide)
  · exact (give_feedback_shape ⟨7, "good", "positive", 0, 0, "x", "", "", "", zero32⟩
      1 (by decide)).2 (by decide)

/-- C10: a sentiment whose lowercased form is not `neutral`, `positive` or
`negative` makes `give_feedback` raise the `ContractError` before any
layout is selected — no invocation is handed to `_send_transaction` (in
this embedding, no `Invocation` value is produced); an accepted sentiment
(matched on the lowercased string, hence case-insensitively) always yields
an invocation carrying its code — `neutral ↦ 0`, `positive ↦ 1`,
`negative ↦ 2` — as the third parameter, and those three are the only
accepted strings. -/
theorem give_feedback_sentiment (a : FeedbackArgs) :
    (SENTIMENT_TO_INT (lowerString a.sentiment) = none →
      give_feedback a = .error ("Invalid sentiment: " ++ a.sentiment ++
        ". Must be positive/neutral/negative")) ∧
    (∀ code, SENTIMENT_TO_INT (lowerString a.sentiment) = some code →
      ∃ inv, give_feedback a = .ok inv ∧
        inv.params.take 3 = [.int a.agent_id, .str a.feedback_text, .int code]) ∧
    (SENTIMENT_TO_INT "neutral" = some 0 ∧ SENTIMENT_TO_INT "positive" = some 1 ∧
      SENTIMENT_TO_INT "negative" = some 2) ∧
    (∀ s, SENTIMENT_TO_INT s ≠ none →
      s = "neutral" ∨ s = "positive" ∨ s = "negative") := by
  refine ⟨?_, ?_, by decide, ?_⟩
  · intro h
    simp only [give_feedback, h]
  · intro code hs
    simp only [give_feedback, hs]
    by_cases hx : a.value ≠ 0 ∨ a.value_decimals ≠ 0 ∨ a.tag1 ≠ "" ∨ a.tag2 ≠ "" ∨
        a.endpoint ≠ "" ∨ a.feedback_uri ≠ "" ∨ a.feedback_hash ≠ zero32
    · rw [if_pos hx]
      exact ⟨_, rfl, rfl⟩
    · rw [if_neg hx]
      exact ⟨_, rfl, rfl⟩
  · intro s hsome
    unfold SENTIMENT_TO_INT at hsome
    by_cases h1 : s = "neutral"
    · exact Or.inl h1
    · by_cases h2 : s = "positive"
      · exact Or.inr (Or.inl h2)
      · by_cases h3 : s = "negative"
        · exact Or.inr (Or.inr h3)
        · simp [h1, h2, h3] at hsome

/-- Witness for C10: `"Sideways"` is rejected with the `ContractError`
text; `"Positive"` (mixed case) is accepted and submits code 1. -/
theorem give_feedback_sentiment_witness :
    give_feedback ⟨7, "good", "Sideways", 0, 0, "", "", "", "", zero32⟩ =
      .error "Invalid sentiment: Sideways. Must be positive/neutral/negative" ∧
    ∃ inv, give_feedback ⟨7, "good", "Positive", 0, 0, "", "", "", "", zero32⟩ =
      .ok inv ∧ inv.params.take 3 = [.int 7, .str "good", .int 1] := by
  constructor
  · exact (give_feedback_sentiment
      ⟨7, "good", "Sideways", 0, 0, "", "", "", "", zero32⟩).1 (by decide)
  · exact (give_feedback_sentiment
      ⟨7, "good", "Positive", 0, 0, "", "", "", "", zero32⟩).2.1 1 (by decide)

/-- C7: an input that starts with none of `file://`, `ipfs://`, `http://`,
`https://` is returned unchanged by `load_request_data` — no error, no
filesystem access, no network access (the result does not depend on
`fileRead`, `net` or the gateway environment variable). -/
theorem load_request_data_passthrough
    (fileRead net : String → Except String String) (gatewayEnv : Option String)
    (uri : String)
    (h1 : pyStartsWith "file://" uri = false)
    (h2 : pyStartsWith "ipfs://" uri = false)
    (h3 : pyStartsWith "http://" uri = false)
    (h4 : pyStartsWith "https://" uri = false) :
    load_request_data fileRead net gatewayEnv uri = .ok uri := by
  simp [load_request_data, h1, h2, h3, h4]

/-- Witness for C7: raw inline JSON text passes through even with a
filesystem and network that always fail. -/
theorem load_request_data_passthrough_witness :
    load_request_data (fun _ => .error "missing") (fun _ => .error "down")
      none "\x7b\"inline\": true\x7d" = .ok "\x7b\"inline\": true\x7d" :=
  load_request_data_passthrough _ _ _ _
    (by decide) (by decide) (by decide) (by decide)

/-- The gateway loop returns the first success: any prefix of failing
gateways is skipped, and gateways after the first success are never
contacted (the conclusion holds whatever `net` answers for them). -/
theorem tryGateways_first_success (net : String → Except String Json)
    (cid : String) :
    ∀ (pre : List String) (g : String) (post : List String) (v : Json)
      (acc : Option String),
      (∀ p ∈ pre, ∃ e, net (gatewayRequestUrl p cid) = .error e) →
      net (gatewayRequestUrl g cid) = .ok v →
      tryGateways net cid (pre ++ g :: post) acc = .ok v := by
  intro pre
  induction pre with
  | nil =>
    intro g post v acc _ hg
    simp [tryGateways, hg]
  | cons p ps ih =>
    intro g post v acc hpre hg
    obtain ⟨e, he⟩ := hpre p (by simp)
    simp only [List.cons_append, tryGateways, he]
    exact ih g post v (some e) (fun q hq => hpre q (by simp [hq])) hg

/-- When every gateway fails, the loop raises the storage error carrying
the underlying error of the last gateway. -/
theorem tryGateways_all_fail (net : String → Except String Json)
    (cid : String) :
    ∀ (l : List String) (gLast : String) (e : String) (acc : Option String),
      (∀ g ∈ l, ∃ er, net (gatewayRequestUrl g cid) = .error er) →
      l.getLast? = some gLast →
      net (gatewayRequestUrl gLast cid) = .error e →
      tryGateways net cid l acc = .error ("All IPFS gateways failed: " ++ e) := by
  intro l
  induction l with
  | nil => intro gLast e acc _ hlast _; simp at hlast
  | cons g rest ih =>
    intro gLast e acc hall hlast hnet
    cases rest with
    | nil =>
      have hg : gLast = g := by simpa using hlast.symm
      subst hg
      simp [tryGateways, hnet]
    | cons g2 r2 =>
      obtain ⟨er, her⟩ := hall g (by simp)
      simp only [tryGateways, her]
      exact ih gLast e (some er) (fun q hq => hall q (by simp [hq]))
        (by simpa [List.getLast?_cons_cons] using hlast) hnet

/-- C5: `fetch` tries the preferred gateway of the instance first and then
each default gateway different from it, in default-list order; the first
gateway whose request succeeds determines the result, the later gateways
being irrelevant; and when every gateway fails the raised storage error
carries the underlying error of the last gateway. -/
theorem fetch_gateway_fallback (st : IPFSStorage)
    (net : String → Except String Json) (uri : String) :
    (fetchGateways st =
      st.gateway_url :: DEFAULT_GATEWAYS.filter (fun g => g ≠ st.gateway_url)) ∧
    (∀ pre g post v, fetchGateways st = pre ++ g :: post →
      (∀ p ∈ pre, ∃ e, net (gatewayRequestUrl p (fetchCid uri)) = .error e) →
      net (gatewayRequestUrl g (fetchCid uri)) = .ok v →
      fetch st net uri = .ok v) ∧
    (∀ gLast e,
      (∀ g ∈ fetchGateways st, ∃ er, net (gatewayRequestUrl g (fetchCid uri)) = .error er) →
      (fetchGateways st).getLast? = some gLast →
      net (gatewayRequestUrl gLast (fetchCid uri)) = .error e →
      fetch st net uri = .error ("All IPFS gateways failed: " ++ e)) := by
  refine ⟨rfl, ?_, ?_⟩
  · intro pre g post v hsplit hpre hg
    rw [fetch, hsplit]
    exact tryGateways_first_success net (fetchCid uri) pre g post v none hpre hg
  · intro gLast e hall hlast hnet
    exact tryGateways_all_fail net (fetchCid uri) (fetchGateways st) gLast e none
      hall hlast hnet

/-- Witness for C5 (the three-gateway scenario of the spec): with the Pinata
gateway preferred, the try order is Pinata, ipfs.io, Cloudflare; only the
third (Cloudflare) succeeds and its document is returned. -/
theorem fetch_gateway_fallback_witness :
    fetch ⟨"https://gateway.pinata.cloud/ipfs"⟩
      (fun url => if url = "https://cloudflare-ipfs.com/ipfs/QmW"
        then .ok Json.null else .error "gateway timeout")
      "ipfs://QmW" = .ok Json.null := by
  refine (fetch_gateway_fallback ⟨"https://gateway.pinata.cloud/ipfs"⟩
      (fun url => if url = "https://cloudflare-ipfs.com/ipfs/QmW"
        then .ok Json.null else .error "gateway timeout")
      "ipfs://QmW").2.1
    ["https://gateway.pinata.cloud/ipfs", "https://ipfs.io/ipfs"]
    "https://cloudflare-ipfs.com/ipfs" [] Json.null (by decide) ?_ (by rfl)
  intro p hp
  simp only [List.mem_cons, List.not_mem_nil, or_false] at hp
  rcases hp with rfl | rfl
  · exact ⟨"gateway timeout", by rfl⟩
  · exact ⟨"gateway timeout", by rfl⟩

/-- A CID is well formed when the scheme marker `ipfs://` does not occur
inside it (true of every base58/base32 content identifier, which cannot
contain `:` or `/`). -/
def cidWellFormed (cid : String) : Prop :=
  ¬ ("ipfs://".toList <:+: cid.toList)

/-- `replaceAllAux` leaves a string without any occurrence of the pattern
unchanged (given enough fuel). -/
theorem replaceAllAux_no_occurrence (pat rep : List Char) :
    ∀ fuel s, s.length ≤ fuel → ¬ (pat <:+: s) →
      replaceAllAux pat rep fuel s = s := by
  intro fuel
  induction fuel with
  | zero =>
    intro s hs _
    cases s with
    | nil => rfl
    | cons c rest => simp at hs
  | succ n ih =>
    intro s hs hocc
    cases s with
    | nil => rfl
    | cons c rest =>
      have hnp : ¬ (pat ≠ [] ∧ pat.isPrefixOf (c :: rest) = true) := by
        rintro ⟨-, hp⟩
        exact hocc (List.isPrefixOf_iff_prefix.mp hp).isInfix
      rw [replaceAllAux, if_neg hnp]
      have : replaceAllAux pat rep n rest = rest :=
        ih rest (by simpa using Nat.le_of_succ_le_succ hs)
          (fun h => hocc (List.infix_cons h))
      rw [this]

/-- Stripping `pat` from `pat ++ s` by replace-all recovers `s` when `pat`
does not occur in `s`. -/
theorem replaceAll_strip (pat s : List Char) (hpat : pat ≠ [])
    (hocc : ¬ (pat <:+: s)) :
    replaceAll pat [] (pat ++ s) = s := by
  cases pat with
  | nil => exact absurd rfl hpat
  | cons p ps =>
    rw [replaceAll]
    have hlen : ((p :: ps) ++ s).length = (ps ++ s).length + 1 := by simp
    rw [hlen, List.cons_append, replaceAllAux,
      if_pos ⟨by simp, List.isPrefixOf_iff_prefix.mpr
        (by rw [← List.cons_append]; exact List.prefix_append (p :: ps) s)⟩]
    have hdrop : ((p :: ps) ++ s).drop (p :: ps).length = s :=
      List.drop_left (p :: ps) s
    rw [List.cons_append] at hdrop
    rw [hdrop, List.nil_append]
    exact replaceAllAux_no_occurrence (p :: ps) [] _ s (by simp) hocc

/-- C8: `format_uri` and `extract_cid` are mutually inverse pure string
transforms on well-formed input — `extract_cid (format_uri cid) = cid` for
every well-formed CID, and `format_uri (extract_cid uri) = uri` for every
well-formed `ipfs://` URI (one whose CID part is well formed). -/
theorem format_extract_inverse (cid uri : String)
    (hcid : cidWellFormed cid)
    (huri : ∃ c, cidWellFormed c ∧ uri = format_uri c) :
    extract_cid (format_uri cid) = cid ∧
      format_uri (extract_cid uri) = uri := by
  have main : ∀ c, cidWellFormed c → extract_cid (format_uri c) = c := by
    intro c hc
    have htl : (format_uri c).toList = "ipfs://".toList ++ c.toList := by
      show ("ipfs://" ++ c).data = "ipfs://".data ++ c.data
      exact String.data_append "ipfs://" c
    have hstart : pyStartsWith "ipfs://" (format_uri c) = true := by
      rw [pyStartsWith, htl]
      exact List.isPrefixOf_iff_prefix.mpr (List.prefix_append _ _)
    rw [extract_cid, if_pos hstart, pyReplace, htl]
    have : replaceAll "ipfs://".toList "".toList ("ipfs://".toList ++ c.toList) =
        c.toList :=
      replaceAll_strip "ipfs://".toList c.toList (by decide) hc
    rw [this]
    show c.data.asString = c
    rfl
  refine ⟨main cid hcid, ?_⟩
  obtain ⟨c, hc, rfl⟩ := huri
  rw [main c hc]

/-- Witness for C8, on the CID `QmW`. -/
theorem format_extract_inverse_witness :
    extract_cid (format_uri "QmW") = "QmW" ∧
      format_uri (extract_cid "ipfs://QmW") = "ipfs://QmW" := by
  have hwf : cidWellFormed "QmW" := by
    intro h
    have := h.length_le
    simp at this
  exact format_extract_inverse "QmW" "ipfs://QmW" hwf ⟨"QmW", hwf, rfl⟩

end TRC8004
